import Mathlib

/-!
# Verification of the Automate_Report_BI KPI pipeline

Shallow embedding of the data-processing core of the repository:
the four vendor processors (`processing_3G_Ericsson.py`, `processing_3G_ZTE.py`,
`processing_4G_Ericsson.py`, `processing_4G_ZTE.py`) and the orchestration in
`script.py`.  Numeric cell values (floats in pandas) are modelled as `Int`;
none of the verified properties depends on fractional arithmetic.  A pandas
`NaN` in a key position is modelled by `Option`.
-/

namespace Spec2Proof

/-! ## Cleaner (`clean_data` in processing_3G_Ericsson.py lines 446-479 and
processing_3G_ZTE.py lines 307-340)

The source computes `df_clean = df[df['3G_Data'] != 0]`.  A row is a cell
record whose `Data` field may be `NaN` (modelled `none`); in pandas,
`NaN != 0` evaluates to `True`, so rows with missing Data are kept. -/

structure CellRecord where
  cellId : String
  user : Int
  speed : Int
  voice : Int
  /-- the Data column; `none` models pandas NaN -/
  data : Option Int
deriving DecidableEq, Repr

/-- pandas boolean mask `Data != 0` for one row: `NaN != 0` is `True`. -/
def dataNeZero (v : Option Int) : Bool :=
  match v with
  | some x => x != 0
  | none => true

/-- Model of `clean_data`: keep exactly the rows whose Data column is `!= 0`
(source: `df_clean = df[df['3G_Data'] != 0]`). -/
def clean_data (rows : List CellRecord) : List CellRecord :=
  rows.filter (fun r => dataNeZero r.data)

/-! ## SiteID derivation (`aggregate_by_site` in processing_3G_Ericsson.py
line 498, processing_4G_Ericsson.py line 401, processing_3G_ZTE.py line 359)

The source computes `df['SiteID'] = df['...Cell_ID'].astype(str).str[1:7]`:
the Python slice of characters at 0-based offsets 1 through 6, which is total
(shorter strings give a shorter or empty result, never an exception). -/

/-- SiteID derivation: Python `s[1:7]` on the cell id string. -/
def siteIdOfCellId (cellId : String) : String :=
  ⟨(cellId.data.drop 1).take 6⟩

/-! ## Busy-hour index (`transform_hs_user` in processing_3G_Ericsson.py
lines 179-208 and `process_ue_active_dl_sheet` in processing_4G_Ericsson.py
lines 79-125)

Both compute `df[hour_columns].idxmax(axis=1)`: the label of the first
(leftmost) column at which the row attains its maximum.  Row-wise this is the
leftmost argmax of the 24 hourly samples. -/

/-- Leftmost index of the maximum of a list (pandas `idxmax` over one row):
`none` on the empty list; on `x :: xs`, the head wins unless the tail's
maximum is strictly larger. -/
def argmaxFirst : List Int → Option Nat
  | [] => none
  | x :: xs =>
    match argmaxFirst xs with
    | none => some 0
    | some j => if x < xs.getD j 0 then some (j + 1) else some 0

/-- One row of a raw hourly "load" table (`HS_User` / `UE_Active_DL`):
the cell id and its hourly samples (hour-0 .. hour-23). -/
structure LoadRow where
  cellId : String
  samples : List Int
deriving DecidableEq, Repr

/-- Column `Max_user` of a load row: `df[hour_columns].max(axis=1)`. -/
def maxUser (r : LoadRow) : Option Int :=
  r.samples.foldl (fun acc x => match acc with
    | none => some x
    | some m => some (max m x)) none

/-- Column `Max_hour_index` of a load row as an index:
`df[hour_columns].idxmax(axis=1)` returns the label of the leftmost maximal
hour column; with hour columns labelled "0".."23" in order this is the
leftmost argmax of the samples. -/
def maxHourIndex (r : LoadRow) : Option Nat :=
  argmaxFirst r.samples

/-! ### Lemmas about `argmaxFirst` -/

theorem argmaxFirst_eq_none {l : List Int} :
    argmaxFirst l = none ↔ l = [] := by
  cases l with
  | nil => simp [argmaxFirst]
  | cons x xs =>
    simp only [argmaxFirst]
    cases h : argmaxFirst xs with
    | none => simp
    | some j =>
      constructor
      · intro hc
        dsimp only at hc
        by_cases hlt : x < xs.getD j 0
        · rw [if_pos hlt] at hc
          exact absurd hc (Option.some_ne_none _)
        · rw [if_neg hlt] at hc
          exact absurd hc (Option.some_ne_none _)
      · intro hc
        exact absurd hc (List.cons_ne_nil x xs)

theorem argmaxFirst_lt_length {l : List Int} {i : Nat}
    (h : argmaxFirst l = some i) : i < l.length := by
  induction l generalizing i with
  | nil => simp [argmaxFirst] at h
  | cons x xs ih =>
    simp only [argmaxFirst] at h
    cases hx : argmaxFirst xs with
    | none =>
      rw [hx] at h
      dsimp only at h
      injection h with h
      subst h
      simp
    | some j =>
      rw [hx] at h
      dsimp only at h
      by_cases hlt : x < xs.getD j 0
      · rw [if_pos hlt] at h
        injection h with h
        subst h
        simpa using Nat.succ_lt_succ (ih hx)
      · rw [if_neg hlt] at h
        injection h with h
        subst h
        simp

theorem argmaxFirst_is_max {l : List Int} {i : Nat}
    (h : argmaxFirst l = some i) :
    ∀ j, j < l.length → l.getD j 0 ≤ l.getD i 0 := by
  induction l generalizing i with
  | nil => simp [argmaxFirst] at h
  | cons x xs ih =>
    simp only [argmaxFirst] at h
    cases hx : argmaxFirst xs with
    | none =>
      rw [hx] at h
      dsimp only at h
      injection h with h
      subst h
      have hnil : xs = [] := argmaxFirst_eq_none.mp hx
      subst hnil
      intro j hj
      cases j with
      | zero => simp
      | succ k => simp at hj
    | some j =>
      rw [hx] at h
      dsimp only at h
      by_cases hlt : x < xs.getD j 0
      · rw [if_pos hlt] at h
        injection h with h
        subst h
        intro k hk
        cases k with
        | zero => simpa using le_of_lt hlt
        | succ k =>
          simp only [List.getD_cons_succ]
          exact ih hx k (by simpa using Nat.lt_of_succ_lt_succ hk)
      · rw [if_neg hlt] at h
        injection h with h
        subst h
        intro k hk
        cases k with
        | zero => simp
        | succ k =>
          simp only [List.getD_cons_succ, List.getD_cons_zero]
          have hk' : k < xs.length := by simpa using Nat.lt_of_succ_lt_succ hk
          exact le_trans (ih hx k hk') (le_of_not_lt hlt)

theorem argmaxFirst_leftmost {l : List Int} {i : Nat}
    (h : argmaxFirst l = some i) :
    ∀ j, j < i → l.getD j 0 < l.getD i 0 := by
  induction l generalizing i with
  | nil => simp [argmaxFirst] at h
  | cons x xs ih =>
    simp only [argmaxFirst] at h
    cases hx : argmaxFirst xs with
    | none =>
      rw [hx] at h
      dsimp only at h
      injection h with h
      subst h
      intro j hj
      exact absurd hj (Nat.not_lt_zero j)
    | some j =>
      rw [hx] at h
      dsimp only at h
      by_cases hlt : x < xs.getD j 0
      · rw [if_pos hlt] at h
        injection h with h
        subst h
        intro k hk
        cases k with
        | zero => simpa using hlt
        | succ k =>
          simp only [List.getD_cons_succ]
          exact ih hx k (Nat.lt_of_succ_lt_succ hk)
      · rw [if_neg hlt] at h
        injection h with h
        subst h
        intro k hk
        exact absurd hk (Nat.not_lt_zero k)

/-! ## SpeedAtBusyHour (`transform_user_tp_dl` in processing_3G_Ericsson.py
lines 266-316 and `process_ue_tp_dl_sheet` in processing_4G_Ericsson.py
lines 127-181)

The source builds a lookup `dict(zip(hs['UCell Id'], hs['Max_hour_index']))`
(later pairs overwrite earlier ones) and applies `get_3g_speed` /
`get_throughput_at_max_ue` to each throughput row: if the cell id is in the
lookup and the row has a column named after the looked-up busy-hour index,
return the value at that column, else return `pd.NA`. -/

/-- One row of a throughput table (`User_TP_DL` / `UE_TP_DL`): the cell id
and the row's labeled hourly columns "0".."23" (the busy-hour labels never
collide with the id/date columns, so restricting the `in row.index`
membership test to the hour columns is faithful). -/
structure TpRow where
  cellId : String
  cols : List (String × Int)
deriving DecidableEq, Repr

/-- Python `dict(zip(keys, vals))` followed by `d[k]` when `k in d`:
later pairs overwrite earlier ones, so look up in the reversed list. -/
def pyDictGet (pairs : List (String × String)) (k : String) : Option String :=
  match pairs.reverse.find? (fun p => p.1 == k) with
  | some p => some p.2
  | none => none

/-- Lookup `row[c]` on a throughput row: value of the column labeled `c`. -/
def rowGet (r : TpRow) (c : String) : Option Int :=
  match r.cols.find? (fun p => p.1 == c) with
  | some p => some p.2
  | none => none

/-- Model of `get_3g_speed(row)` (and identically `get_throughput_at_max_ue(row)`):
look the cell id up in the busy-hour dictionary; if found and the hour label
is one of the row's columns, return that column's value; in every other case
return `pd.NA` (modelled `none`). -/
def get_3g_speed (hsLookup : List (String × String)) (row : TpRow) : Option Int :=
  match pyDictGet hsLookup row.cellId with
  | some hourCol =>
    if row.cols.any (fun p => p.1 == hourCol) then rowGet row hourCol
    else none
  | none => none

/-- The busy-hour lookup table produced by `transform_hs_user` /
`process_ue_active_dl_sheet`: pairs (cell id, busy-hour column label),
the label being the decimal string of the leftmost argmax index. -/
def hsLookupOf (hs : List LoadRow) : List (String × String) :=
  hs.filterMap (fun r => (maxHourIndex r).map (fun i => (r.cellId, toString i)))

theorem rowGet_eq_none_of_any_false {r : TpRow} {c : String}
    (h : r.cols.any (fun p => p.1 == c) = false) : rowGet r c = none := by
  unfold rowGet
  have hf : r.cols.find? (fun p => p.1 == c) = none := by
    rw [List.find?_eq_none]
    intro x hx
    have := List.any_eq_false.mp h x hx
    simpa using this
  rw [hf]

/-- Claim C1. For every throughput-table row, the computed speed equals the
throughput row's value at exactly the busy-hour column obtained by looking
the cell id up in the load table's busy-hour result (never the row's own
maximum); if the cell id is absent from the lookup, or the looked-up hour
label has no corresponding column in the row, the result is the explicit
`none` (pandas `pd.NA`) — never zero, and the function is total (it cannot
raise). -/
theorem speedAtBusyHour_spec (hsLookup : List (String × String)) (row : TpRow) :
    (∀ h, pyDictGet hsLookup row.cellId = some h →
        get_3g_speed hsLookup row = rowGet row h)
    ∧ (pyDictGet hsLookup row.cellId = none → get_3g_speed hsLookup row = none)
    ∧ (∀ h, pyDictGet hsLookup row.cellId = some h →
        row.cols.any (fun p => p.1 == h) = false →
        get_3g_speed hsLookup row = none) := by
  refine ⟨?_, ?_, ?_⟩
  · intro h hl
    unfold get_3g_speed
    rw [hl]
    dsimp only
    by_cases hmem : row.cols.any (fun p => p.1 == h) = true
    · rw [if_pos hmem]
    · have hf : row.cols.any (fun p => p.1 == h) = false :=
        Bool.eq_false_iff.mpr hmem
      rw [if_neg (by simp [hf])]
      exact (rowGet_eq_none_of_any_false hf).symm
  · intro hl
    unfold get_3g_speed
    rw [hl]
  · intro h hl hmem
    unfold get_3g_speed
    rw [hl]
    dsimp only
    rw [if_neg (by simp [hmem])]

/-- A concrete load row realising the spec's end-to-end scenario: load series
`[0,0,5,0,…,0]` with its maximum at hour 2. -/
def loadRowBH : LoadRow :=
  ⟨"HHN0001A", [0, 0, 5, 0] ++ List.replicate 20 0⟩

/-- The matching throughput row: value 120 at hour column "2". -/
def tpRowBH : TpRow :=
  ⟨"HHN0001A", (List.range 24).map (fun i => (toString i, if i = 2 then 120 else 7))⟩

/-- A throughput row whose cell id is absent from the load table. -/
def tpRowMissing : TpRow :=
  ⟨"XXX9999Z", (List.range 24).map (fun i => (toString i, 7))⟩

/-- Witness for C1: on the concrete scenario the busy hour of the load series
is hour 2, the speed is the throughput value 120 sampled at hour 2, and an
unknown cell id yields `none`. -/
theorem speedAtBusyHour_spec_witness :
    get_3g_speed (hsLookupOf [loadRowBH]) tpRowBH = rowGet tpRowBH "2"
    ∧ rowGet tpRowBH "2" = some 120
    ∧ get_3g_speed (hsLookupOf [loadRowBH]) tpRowMissing = none :=
  ⟨(speedAtBusyHour_spec (hsLookupOf [loadRowBH]) tpRowBH).1 "2" (by decide),
   by decide,
   (speedAtBusyHour_spec (hsLookupOf [loadRowBH]) tpRowMissing).2.1 (by decide)⟩

/-- Claim C2. For every cell row of a load table with its 24 hourly samples,
the busy-hour index exists, lies in [0,23], attains the maximum of the
series, and is the leftmost such index: every strictly earlier hour has a
strictly smaller value, so tied maxima report the earliest hour. -/
theorem busyHourIndex_leftmost_max (r : LoadRow) (h24 : r.samples.length = 24) :
    ∃ i, maxHourIndex r = some i ∧ i ≤ 23 ∧
      (∀ j, j < 24 → r.samples.getD j 0 ≤ r.samples.getD i 0) ∧
      (∀ j, j < i → r.samples.getD j 0 < r.samples.getD i 0) := by
  have hne : r.samples ≠ [] := by
    intro hnil
    rw [hnil] at h24
    simp at h24
  cases hi : argmaxFirst r.samples with
  | none => exact absurd (argmaxFirst_eq_none.mp hi) hne
  | some i =>
    refine ⟨i, hi, ?_, ?_, argmaxFirst_leftmost hi⟩
    · have := argmaxFirst_lt_length hi
      omega
    · intro j hj
      exact argmaxFirst_is_max hi j (by omega)

/-- A load row with the maximum 5 attained at the tied hours 2 and 7. -/
def loadRowTie : LoadRow :=
  ⟨"HHN0002B", [1, 1, 5, 0, 0, 0, 0, 5] ++ List.replicate 16 0⟩

/-- Witness for C2 at a concrete tied series: the properties hold, and the
index actually computed is the earlier tied hour 2. -/
theorem busyHourIndex_leftmost_max_witness :
    (∃ i, maxHourIndex loadRowTie = some i ∧ i ≤ 23 ∧
      (∀ j, j < 24 → loadRowTie.samples.getD j 0 ≤ loadRowTie.samples.getD i 0) ∧
      (∀ j, j < i → loadRowTie.samples.getD j 0 < loadRowTie.samples.getD i 0))
    ∧ maxHourIndex loadRowTie = some 2 :=
  ⟨busyHourIndex_leftmost_max loadRowTie (by decide), by decide⟩

/-! ### Cleaner: claim C5 -/

theorem dataNeZero_eq_not_beq (v : Option Int) :
    dataNeZero v = !(v == some 0) := by
  cases v <;> rfl

/-- Claim C5. The Cleaner removes all and only rows whose Data value equals 0:
the output is exactly the input filtered to rows with `Data != 0` (rows with
missing/NaN Data are kept), it is a sublist of the input (original relative
order preserved), and its row count is the input count minus the number of
rows whose Data equals 0. -/
theorem cleaner_spec (rows : List CellRecord) :
    clean_data rows = rows.filter (fun r => !(r.data == some 0))
    ∧ (clean_data rows).Sublist rows
    ∧ (clean_data rows).length
        = rows.length - rows.countP (fun r => r.data == some 0) := by
  have hcong : clean_data rows = rows.filter (fun r => !(r.data == some 0)) := by
    unfold clean_data
    exact List.filter_congr (fun r _ => dataNeZero_eq_not_beq r.data)
  refine ⟨hcong, ?_, ?_⟩
  · unfold clean_data
    exact List.filter_sublist rows
  · rw [hcong]
    have hsplit := List.length_eq_countP_add_countP
      (p := fun r : CellRecord => r.data == some 0) rows
    have h1 : (rows.filter (fun r => !(r.data == some 0))).length
        = rows.countP (fun r => !(r.data == some 0)) :=
      (List.countP_eq_length_filter _ _).symm
    have h2 : rows.countP (fun r => !(r.data == some 0))
        = rows.countP (fun r : CellRecord => ¬(r.data == some 0 : Bool)) := by
      apply List.countP_congr
      intro r _
      simp
    rw [h1, h2]
    omega

/-- A concrete mixed input: positive data, zero data, and NaN data. -/
def cleanRowsEx : List CellRecord :=
  [⟨"HHN0001A", 10, 3, 2, some 5⟩,
   ⟨"HHN0001B", 4, 1, 1, some 0⟩,
   ⟨"HHN0001C", 2, 2, 0, none⟩,
   ⟨"HHN0002A", 7, 9, 3, some 0⟩]

/-- Witness for C5 at the concrete input: the zero-data rows are removed, the
NaN row is kept, and 4 − 2 = 2 rows remain. -/
theorem cleaner_spec_witness :
    clean_data cleanRowsEx = cleanRowsEx.filter (fun r => !(r.data == some 0))
    ∧ (clean_data cleanRowsEx).Sublist cleanRowsEx
    ∧ (clean_data cleanRowsEx).length
        = cleanRowsEx.length - cleanRowsEx.countP (fun r => r.data == some 0) :=
  cleaner_spec cleanRowsEx

/-! ### SiteID derivation: claim C9 -/

/-- Claim C9. SiteID derivation is a pure, total function of the CellID string:
for every CellID the result is exactly the characters at 0-based offsets 1
through 6 (so its length is `min 6 (length − 1)`, degenerate — shorter or
empty — for CellIDs shorter than 7 characters), and no input can raise. -/
theorem siteId_spec (s : String) :
    (siteIdOfCellId s).length = min 6 (s.length - 1)
    ∧ (∀ i, i < 6 → (siteIdOfCellId s).data.get? i = s.data.get? (i + 1)) := by
  constructor
  · show ((s.data.drop 1).take 6).length = min 6 (s.length - 1)
    rw [List.length_take, List.length_drop]
    rfl
  · intro i hi
    show ((s.data.drop 1).take 6).get? i = s.data.get? (i + 1)
    rw [List.get?_take hi, List.get?_drop]
    congr 1
    omega

/-- Witness for C9 at concrete inputs, including a CellID shorter than 7
characters (degenerate SiteID) and the empty CellID. -/
theorem siteId_spec_witness :
    (siteIdOfCellId "HHN0001A").length = min 6 ("HHN0001A".length - 1)
    ∧ (siteIdOfCellId "HHN0001A").data.get? 0 = "HHN0001A".data.get? 1
    ∧ siteIdOfCellId "HHN0001A" = "HN0001"
    ∧ siteIdOfCellId "AB" = "B"
    ∧ siteIdOfCellId "" = "" :=
  ⟨(siteId_spec "HHN0001A").1,
   (siteId_spec "HHN0001A").2 0 (by decide),
   by decide, by decide, by decide⟩

/-! ## Technology Merger (`main` in script.py lines 319-342)

The source concatenates the two vendors' site tables per technology
(`pd.concat`, lines 321 and 327) and then outer-joins 3G and 4G on `SiteID`
with `pd.merge(df_3g_site, df_4g_site, on='SiteID', how='outer').fillna(0)`
(lines 336-341).  Outer-merge semantics: every 3G row is paired with every
4G row of the same SiteID (or kept alone if there is none), and every 4G row
matched by no 3G row is appended; `fillna(0)` turns the fields of the absent
side into 0. -/

/-- A 3G site-level row (output of `aggregate_by_site`). -/
structure Site3 where
  siteId : String
  user : Int
  speed : Int
  voice : Int
  data : Int
deriving DecidableEq, Repr

/-- A 4G site-level row (output of `aggregate_by_site`). -/
structure Site4 where
  siteId : String
  user : Int
  speed : Int
  voice : Int
  data : Int
deriving DecidableEq, Repr

/-- A combined row of the outer merge after `fillna(0)`: every field is
present (absence is impossible by construction — this is the "filled with 0,
never left absent" shape). -/
structure Combined where
  siteId : String
  u3 : Int
  s3 : Int
  v3 : Int
  d3 : Int
  u4 : Int
  s4 : Int
  v4 : Int
  d4 : Int
deriving DecidableEq, Repr

/-- The 4G rows matching a given 3G row's SiteID. -/
def matches4 (l4 : List Site4) (a : Site3) : List Site4 :=
  l4.filter (fun b => b.siteId == a.siteId)

/-- A combined row for a SiteID covered by both technologies. -/
def rowBoth (a : Site3) (b : Site4) : Combined :=
  ⟨a.siteId, a.user, a.speed, a.voice, a.data, b.user, b.speed, b.voice, b.data⟩

/-- A combined row for a SiteID covered only by 3G: 4G fields filled with 0. -/
def row3Only (a : Site3) : Combined :=
  ⟨a.siteId, a.user, a.speed, a.voice, a.data, 0, 0, 0, 0⟩

/-- A combined row for a SiteID covered only by 4G: 3G fields filled with 0. -/
def row4Only (b : Site4) : Combined :=
  ⟨b.siteId, 0, 0, 0, 0, b.user, b.speed, b.voice, b.data⟩

/-- The block of merged rows a single 3G row contributes: one row per
matching 4G row, or a single 4G-fields-zero row if no 4G row matches. -/
def leftBlock (l4 : List Site4) (a : Site3) : List Combined :=
  if (matches4 l4 a).isEmpty then [row3Only a]
  else (matches4 l4 a).map (rowBoth a)

/-- All merged rows contributed by the 3G side. -/
def leftPart (l3 : List Site3) (l4 : List Site4) : List Combined :=
  l3.flatMap (leftBlock l4)

/-- The merged rows of 4G sites matched by no 3G row: 3G fields zero. -/
def rightOnlyPart (l3 : List Site3) (l4 : List Site4) : List Combined :=
  (l4.filter (fun b => !(l3.any (fun a => b.siteId == a.siteId)))).map row4Only

/-- Model of `pd.merge(df_3g_site, df_4g_site, on='SiteID', how='outer').fillna(0)`. -/
def mergeOuterFill (l3 : List Site3) (l4 : List Site4) : List Combined :=
  leftPart l3 l4 ++ rightOnlyPart l3 l4

theorem leftBlock_length_pos (l4 : List Site4) (a : Site3) :
    1 ≤ (leftBlock l4 a).length := by
  unfold leftBlock
  by_cases h : (matches4 l4 a).isEmpty
  · rw [if_pos h]
    simp
  · rw [if_neg h]
    rw [List.length_map]
    have : matches4 l4 a ≠ [] := by
      intro hc
      rw [hc] at h
      simp at h
    cases hm : matches4 l4 a with
    | nil => exact absurd hm this
    | cons y ys => simp

theorem leftPart_cons (a : Site3) (l3 : List Site3) (l4 : List Site4) :
    leftPart (a :: l3) l4 = leftBlock l4 a ++ leftPart l3 l4 := by
  unfold leftPart
  simp [List.flatMap]

theorem leftPart_length_ge (l3 : List Site3) (l4 : List Site4) :
    l3.length ≤ (leftPart l3 l4).length := by
  induction l3 with
  | nil => simp [leftPart]
  | cons a t ih =>
    rw [leftPart_cons, List.length_append]
    have := leftBlock_length_pos l4 a
    simp only [List.length_cons]
    omega

theorem length_filter_or_le {α : Type} (l : List α) (p q : α → Bool) :
    (l.filter (fun x => p x || q x)).length
      ≤ (l.filter p).length + (l.filter q).length := by
  induction l with
  | nil => simp
  | cons x t ih =>
    by_cases hp : p x
    · by_cases hq : q x <;> simp [List.filter_cons, hp, hq] <;> omega
    · by_cases hq : q x <;> simp [List.filter_cons, hp, hq] <;> omega

theorem leftPart_length_ge_matched (l3 : List Site3) (l4 : List Site4) :
    (l4.filter (fun b => l3.any (fun a => b.siteId == a.siteId))).length
      ≤ (leftPart l3 l4).length := by
  induction l3 with
  | nil => simp [leftPart]
  | cons a t ih =>
    rw [leftPart_cons, List.length_append]
    have hsplit : (l4.filter (fun b => (a :: t).any (fun a => b.siteId == a.siteId))).length
        ≤ (l4.filter (fun b => b.siteId == a.siteId)).length
          + (l4.filter (fun b => t.any (fun a => b.siteId == a.siteId))).length := by
      have := length_filter_or_le l4 (fun b => b.siteId == a.siteId)
        (fun b => t.any (fun a => b.siteId == a.siteId))
      simpa [List.any_cons] using this
    have hblock : (l4.filter (fun b => b.siteId == a.siteId)).length
        ≤ (leftBlock l4 a).length := by
      unfold leftBlock
      by_cases h : (matches4 l4 a).isEmpty
      · rw [if_pos h]
        have : matches4 l4 a = [] := List.isEmpty_iff.mp h
        unfold matches4 at this
        rw [this]
        simp
      · rw [if_neg h]
        rw [List.length_map]
        unfold matches4
        exact le_refl _
    omega

theorem length_filter_split {α : Type} (l : List α) (p : α → Bool) :
    (l.filter p).length + (l.filter (fun x => !(p x))).length = l.length := by
  induction l with
  | nil => simp
  | cons x t ih =>
    by_cases hp : p x <;> simp [List.filter_cons, hp] <;> omega

/-- Claim C3. The technology merge (outer join on SiteID, then `fillna(0)`)
never drops a site present in either technology: the combined row count is at
least `max |3G| |4G|`; a site present only in 4G gets a combined row whose
3G fields are all 0, and symmetrically a site present only in 3G gets a row
whose 4G fields are all 0 (absent fields are filled with 0, never left
absent). -/
theorem mergeOuterFill_spec (l3 : List Site3) (l4 : List Site4) :
    max l3.length l4.length ≤ (mergeOuterFill l3 l4).length
    ∧ (∀ b ∈ l4, (∀ a ∈ l3, a.siteId ≠ b.siteId) →
        row4Only b ∈ mergeOuterFill l3 l4
        ∧ (row4Only b).u3 = 0 ∧ (row4Only b).s3 = 0
        ∧ (row4Only b).v3 = 0 ∧ (row4Only b).d3 = 0)
    ∧ (∀ a ∈ l3, (∀ b ∈ l4, b.siteId ≠ a.siteId) →
        row3Only a ∈ mergeOuterFill l3 l4
        ∧ (row3Only a).u4 = 0 ∧ (row3Only a).s4 = 0
        ∧ (row3Only a).v4 = 0 ∧ (row3Only a).d4 = 0) := by
  refine ⟨?_, ?_, ?_⟩
  · have h3 : l3.length ≤ (mergeOuterFill l3 l4).length := by
      unfold mergeOuterFill
      rw [List.length_append]
      have := leftPart_length_ge l3 l4
      omega
    have h4 : l4.length ≤ (mergeOuterFill l3 l4).length := by
      unfold mergeOuterFill
      rw [List.length_append]
      have hm := leftPart_length_ge_matched l3 l4
      have hr : (rightOnlyPart l3 l4).length
          = (l4.filter (fun b => !(l3.any (fun a => b.siteId == a.siteId)))).length := by
        unfold rightOnlyPart
        rw [List.length_map]
      have hsplit := length_filter_split l4 (fun b => l3.any (fun a => b.siteId == a.siteId))
      omega
    exact max_le h3 h4
  · intro b hb hnone
    have hfilter : (!(l3.any (fun a => b.siteId == a.siteId))) = true := by
      simp only [Bool.not_eq_true', List.any_eq_false]
      intro a ha
      simpa using (hnone a ha).symm
    refine ⟨?_, rfl, rfl, rfl, rfl⟩
    unfold mergeOuterFill
    apply List.mem_append_right
    unfold rightOnlyPart
    exact List.mem_map_of_mem row4Only (List.mem_filter.mpr ⟨hb, hfilter⟩)
  · intro a ha hnone
    have hempty : (matches4 l4 a).isEmpty = true := by
      unfold matches4
      rw [List.isEmpty_iff, List.filter_eq_nil_iff]
      intro b hb
      simpa using hnone b hb
    refine ⟨?_, rfl, rfl, rfl, rfl⟩
    unfold mergeOuterFill
    apply List.mem_append_left
    have hmem : row3Only a ∈ leftBlock l4 a := by
      unfold leftBlock
      rw [if_pos hempty]
      simp
    unfold leftPart
    exact List.mem_flatMap.mpr ⟨a, ha, hmem⟩

/-- Concrete site tables: SiteID "HN0002" is 4G-only, "HN0001" is 3G-only. -/
def l3Ex : List Site3 := [⟨"HN0001", 10, 3, 2, 40⟩]

def l4Ex : List Site4 := [⟨"HN0002", 20, 9, 0, 80⟩]

/-- Witness for C3: with one 3G-only and one 4G-only site, the merge keeps
both (count 2 ≥ max 1 1) and fills the missing technology's fields with 0. -/
theorem mergeOuterFill_spec_witness :
    max l3Ex.length l4Ex.length ≤ (mergeOuterFill l3Ex l4Ex).length
    ∧ (row4Only ⟨"HN0002", 20, 9, 0, 80⟩ ∈ mergeOuterFill l3Ex l4Ex
        ∧ (row4Only ⟨"HN0002", 20, 9, 0, 80⟩).u3 = 0
        ∧ (row4Only ⟨"HN0002", 20, 9, 0, 80⟩).s3 = 0
        ∧ (row4Only ⟨"HN0002", 20, 9, 0, 80⟩).v3 = 0
        ∧ (row4Only ⟨"HN0002", 20, 9, 0, 80⟩).d3 = 0) :=
  ⟨(mergeOuterFill_spec l3Ex l4Ex).1,
   (mergeOuterFill_spec l3Ex l4Ex).2.1 ⟨"HN0002", 20, 9, 0, 80⟩ (by decide)
     (by intro a ha hc
         have : a = (⟨"HN0001", 10, 3, 2, 40⟩ : Site3) := by
           simpa [l3Ex] using ha
         rw [this] at hc
         exact absurd hc (by decide))⟩

/-! ### Row multiplicity of the technology merge: claim C8

`pd.concat` (script.py lines 321, 327) keeps duplicate SiteIDs as separate
rows, and the outer merge pairs every 3G row with every matching 4G row, so
a SiteID present twice on one side yields two combined rows. -/

theorem string_beq_comm (x y : String) : (x == y) = (y == x) := by
  by_cases h : x = y
  · rw [h]
  · rw [beq_eq_false_iff_ne.mpr h, beq_eq_false_iff_ne.mpr (Ne.symm h)]

theorem countP_leftBlock (l4 : List Site4) (a : Site3) (s : String) :
    (leftBlock l4 a).countP (fun r => r.siteId == s)
      = if a.siteId == s then max 1 (l4.countP (fun b => b.siteId == s)) else 0 := by
  by_cases ha : (a.siteId == s) = true
  · rw [if_pos ha]
    have haeq : a.siteId = s := beq_iff_eq.mp ha
    have hm : matches4 l4 a = l4.filter (fun b => b.siteId == s) := by
      unfold matches4
      apply List.filter_congr
      intro b _
      rw [haeq]
    unfold leftBlock
    by_cases he : (matches4 l4 a).isEmpty
    · rw [if_pos he]
      have h0 : l4.countP (fun b => b.siteId == s) = 0 := by
        rw [List.countP_eq_length_filter, ← hm, List.isEmpty_iff.mp he]
        rfl
      rw [h0]
      simp [List.countP_cons, row3Only, haeq]
    · rw [if_neg he]
      rw [List.countP_map]
      have hall : (matches4 l4 a).countP ((fun r => r.siteId == s) ∘ rowBoth a)
          = (matches4 l4 a).length := by
        rw [List.countP_eq_length]
        intro b _
        simpa [rowBoth] using ha
      rw [hall, hm, ← List.countP_eq_length_filter]
      have hpos : 0 < l4.countP (fun b => b.siteId == s) := by
        have : matches4 l4 a ≠ [] := by
          intro hc
          rw [hc] at he
          simp at he
        rw [hm] at this
        have : 0 < (l4.filter (fun b => b.siteId == s)).length :=
          List.length_pos.mpr this
        rwa [List.countP_eq_length_filter]
      omega
  · rw [if_neg ha]
    have ha' : (a.siteId == s) = false := Bool.eq_false_iff.mpr ha
    unfold leftBlock
    by_cases he : (matches4 l4 a).isEmpty
    · rw [if_pos he]
      simp [List.countP_cons, row3Only, ha']
    · rw [if_neg he]
      rw [List.countP_map, List.countP_eq_zero]
      intro b _
      simpa [rowBoth] using ha

theorem countP_leftPart (l3 : List Site3) (l4 : List Site4) (s : String) :
    (leftPart l3 l4).countP (fun r => r.siteId == s)
      = l3.countP (fun a => a.siteId == s)
          * max 1 (l4.countP (fun b => b.siteId == s)) := by
  induction l3 with
  | nil => simp [leftPart]
  | cons a t ih =>
    rw [leftPart_cons, List.countP_append, countP_leftBlock, ih, List.countP_cons]
    by_cases ha : (a.siteId == s) = true
    · rw [if_pos ha, if_pos ha]
      ring
    · have ha' : (a.siteId == s) = false := Bool.eq_false_iff.mpr ha
      rw [if_neg ha, ha']
      simp

theorem countP_rightOnlyPart (l3 : List Site3) (l4 : List Site4) (s : String) :
    (rightOnlyPart l3 l4).countP (fun r => r.siteId == s)
      = if l3.any (fun a => a.siteId == s) then 0
        else l4.countP (fun b => b.siteId == s) := by
  unfold rightOnlyPart
  rw [List.countP_map, List.countP_filter]
  by_cases hany : (l3.any (fun a => a.siteId == s)) = true
  · rw [if_pos hany]
    rw [List.countP_eq_zero]
    intro b _
    simp only [Function.comp, row4Only, Bool.and_eq_true, Bool.not_eq_true']
    rintro ⟨hbs, hnot⟩
    have hbs' : b.siteId = s := beq_iff_eq.mp hbs
    have : l3.any (fun a => b.siteId == a.siteId) = true := by
      obtain ⟨a, ha, has⟩ := List.any_eq_true.mp hany
      exact List.any_eq_true.mpr ⟨a, ha, by rw [hbs', string_beq_comm]; exact has⟩
    rw [this] at hnot
    simp at hnot
  · have hany' : (l3.any (fun a => a.siteId == s)) = false := Bool.eq_false_iff.mpr hany
    rw [if_neg hany]
    apply List.countP_congr
    intro b _
    simp only [Function.comp, row4Only]
    by_cases hbs : (b.siteId == s) = true
    · have hbs' : b.siteId = s := beq_iff_eq.mp hbs
      have hno : l3.any (fun a => b.siteId == a.siteId) = false := by
        rw [List.any_eq_false]
        intro a ha
        have := List.any_eq_false.mp hany' a ha
        rw [hbs', string_beq_comm]
        simpa using this
      simp [hbs, hno]
    · have hbs' : (b.siteId == s) = false := Bool.eq_false_iff.mpr hbs
      simp [hbs']

/-- Two 3G site rows with the same SiteID, as produced when both vendors of
one technology report the same site (the concatenation keeps both). -/
def c8dupA : Site3 := ⟨"HN0003", 1, 2, 3, 4⟩

def c8dupB : Site3 := ⟨"HN0003", 5, 6, 7, 8⟩

/-- Claim C8, counterexample. SiteID "HN0003" appears in the concatenated 3G
table, yet the combined output contains two rows with that SiteID, not
exactly one: the merge duplicates SiteIDs reported by both vendors of one
technology. -/
theorem mergeOuterFill_dup_counterexample :
    "HN0003" ∈ [c8dupA, c8dupB].map Site3.siteId
    ∧ (mergeOuterFill [c8dupA, c8dupB] []).countP (fun r => r.siteId == "HN0003") = 2 := by
  decide

/-- Claim C8, amended. The technology merge yields at least one combined row per
SiteID present in either concatenated table, and exactly one combined row for
every SiteID that occurs at most once in the 3G table and at most once in
the 4G table; a SiteID occurring several times on one side (e.g. reported by
both vendors of one technology) yields several rows. -/
theorem mergeOuterFill_one_row_of_nodup (l3 : List Site3) (l4 : List Site4)
    (s : String)
    (hpresent : s ∈ l3.map Site3.siteId ∨ s ∈ l4.map Site4.siteId)
    (h3 : l3.countP (fun a => a.siteId == s) ≤ 1)
    (h4 : l4.countP (fun b => b.siteId == s) ≤ 1) :
    (mergeOuterFill l3 l4).countP (fun r => r.siteId == s) = 1 := by
  unfold mergeOuterFill
  rw [List.countP_append, countP_leftPart, countP_rightOnlyPart]
  by_cases hc3 : l3.countP (fun a => a.siteId == s) = 0
  · have hno : l3.any (fun a => a.siteId == s) = false := by
      rw [List.any_eq_false]
      intro a ha
      have := List.countP_eq_zero.mp hc3 a ha
      simpa using this
    rw [hc3, hno]
    simp only [Nat.zero_mul, Nat.zero_add, Bool.false_eq_true, if_false]
    have hs4 : s ∈ l4.map Site4.siteId := by
      rcases hpresent with h | h
      · exfalso
        obtain ⟨a, ha, has⟩ := List.mem_map.mp h
        have := List.countP_eq_zero.mp hc3 a ha
        rw [has] at this
        simp at this
      · exact h
    obtain ⟨b, hb, hbs⟩ := List.mem_map.mp hs4
    have hpos : 0 < l4.countP (fun b => b.siteId == s) :=
      List.countP_pos_iff.mpr ⟨b, hb, by simp [hbs]⟩
    omega
  · have hc3' : l3.countP (fun a => a.siteId == s) = 1 := by omega
    have hyes : l3.any (fun a => a.siteId == s) = true := by
      have hpos : 0 < l3.countP (fun a => a.siteId == s) := by omega
      obtain ⟨a, ha, has⟩ := List.countP_pos_iff.mp hpos
      exact List.any_eq_true.mpr ⟨a, ha, has⟩
    rw [hc3', hyes]
    simp only [Nat.one_mul, if_true, Nat.add_zero]
    rcases Nat.le_one_iff_eq_zero_or_eq_one.mp h4 with h | h <;> rw [h] <;> rfl

/-- Witness for the amended C8: with distinct SiteIDs on each side, a SiteID
present in both tables gets exactly one combined row. -/
theorem mergeOuterFill_one_row_of_nodup_witness :
    (mergeOuterFill [⟨"HN0001", 10, 3, 2, 40⟩]
      [⟨"HN0001", 20, 9, 0, 80⟩]).countP (fun r => r.siteId == "HN0001") = 1 :=
  mergeOuterFill_one_row_of_nodup [⟨"HN0001", 10, 3, 2, 40⟩]
    [⟨"HN0001", 20, 9, 0, 80⟩] "HN0001"
    (Or.inl (by decide)) (by decide) (by decide)

/-! ## Retention Store (`main` in script.py lines 396-427)

If `Aggregate.xlsx` exists, the source appends the day's rows to the loaded
history, keeps only rows with `Date >= datetime.now() - timedelta(days=30)`
and sorts by Date; if the file does not exist, the day's rows are persisted
unfiltered (`df_combined = df_site_data`, no cutoff applied).  Dates are
modelled as integer day numbers, `now` being the wall-clock day at write
time. -/

/-- One persisted row of the historical site table, tagged with its Date. -/
structure RetentionRow where
  site : String
  date : Int
deriving DecidableEq, Repr

/-- Insertion step of a stable sort by ascending Date. -/
def insertByDate (e : RetentionRow) : List RetentionRow → List RetentionRow
  | [] => [e]
  | x :: xs => if e.date ≤ x.date then e :: x :: xs else x :: insertByDate e xs

/-- Model of `df_combined.sort_values('Date')`. -/
def sortByDate : List RetentionRow → List RetentionRow
  | [] => []
  | x :: xs => insertByDate x (sortByDate xs)

/-- The retention write of script.py lines 401-426: existing file → append,
evict rows older than `now − 30`, sort by date; no existing file → persist
the new rows as-is (no eviction). -/
def retentionWrite (now : Int) (existing : Option (List RetentionRow))
    (newRows : List RetentionRow) : List RetentionRow :=
  match existing with
  | some old => sortByDate ((old ++ newRows).filter (fun e => now - 30 ≤ e.date))
  | none => newRows

theorem mem_insertByDate {e a : RetentionRow} {l : List RetentionRow} :
    a ∈ insertByDate e l ↔ a = e ∨ a ∈ l := by
  induction l with
  | nil => simp [insertByDate]
  | cons x xs ih =>
    unfold insertByDate
    by_cases h : e.date ≤ x.date
    · rw [if_pos h]
      simp
    · rw [if_neg h]
      simp only [List.mem_cons, ih]
      tauto

theorem mem_sortByDate {a : RetentionRow} {l : List RetentionRow} :
    a ∈ sortByDate l ↔ a ∈ l := by
  induction l with
  | nil => simp [sortByDate]
  | cons x xs ih =>
    unfold sortByDate
    rw [mem_insertByDate, ih]
    simp

/-- A row whose Date is 50, written on wall-clock day 100: older than the
30-day window. -/
def staleRow : RetentionRow := ⟨"HN0001", 50⟩

/-- Claim C4, counterexample. On a first run (no prior historical table) with a
backfilled data-date 50 and wall-clock day 100, the persisted table retains a
row dated 50 < 100 − 30: the claim's "for every run ... whether or not a
prior historical table exists" fails, because the no-prior-file branch never
applies the cutoff. -/
theorem retention_firstWrite_counterexample :
    staleRow ∈ retentionWrite 100 none [staleRow]
    ∧ staleRow.date < 100 - 30 := by
  constructor
  · show staleRow ∈ [staleRow]
    simp
  · decide

/-- Claim C4, amended. On every run in which a prior historical table exists,
after the retention write no retained row has a Date earlier than the
wall-clock time at write minus 30 days; on a first run (no prior table) the
new rows are persisted without eviction and may be arbitrarily old. -/
theorem retention_evicts_when_history_exists (now : Int)
    (old newRows : List RetentionRow) :
    ∀ e ∈ retentionWrite now (some old) newRows, now - 30 ≤ e.date := by
  intro e he
  unfold retentionWrite at he
  rw [mem_sortByDate] at he
  have := (List.mem_filter.mp he).2
  exact of_decide_eq_true this

/-- Witness for the amended C4 at a concrete store: the kept row satisfies
the cutoff. -/
theorem retention_evicts_when_history_exists_witness :
    100 - 30 ≤ (⟨"HN0001", 95⟩ : RetentionRow).date :=
  retention_evicts_when_history_exists 100
    [⟨"HN0001", 95⟩, ⟨"HN0002", 40⟩] [⟨"HN0003", 99⟩]
    ⟨"HN0001", 95⟩ (by decide)

/-! ## Run orchestration (`main` in script.py lines 179-471)

The whole run — download, extraction, the four vendor pipelines, the
3G/4G concatenations and merge, and the retention write — executes inside a
single `try:` block; `current_step` names the stage being executed, and the
single `except` at line 462 receives the first exception.  A step sequence
therefore executes in order up to and including the first failing step, and
nothing after it runs. -/

/-- The stages of `main` (values of `current_step`), in program order. -/
inductive Step where
  | connectExchange
  | cleanDownloads
  | downloadEricsson
  | downloadZTE
  | extractZips
  | proc3GEricsson
  | proc3GZTE
  | proc4GEricsson
  | proc4GZTE
  | concat3G
  | concat4G
  | merge3G4G
  | saveExcel
deriving DecidableEq, Repr

/-- The ordered stage list of one run of `main`: the email stages are skipped
under `--skip-email`; the data stages always follow in the order of
script.py lines 257-426. -/
def mainSteps (skipEmail : Bool) : List Step :=
  (if skipEmail then []
   else [.connectExchange, .cleanDownloads, .downloadEricsson, .downloadZTE])
  ++ [.extractZips, .proc3GEricsson, .proc3GZTE, .proc4GEricsson, .proc4GZTE,
      .concat3G, .concat4G, .merge3G4G, .saveExcel]

/-- Execution of a stage list inside the single `try:` of `main`: stages run
in order; the first failing stage is entered (and raises), and every stage
after it is skipped (control jumps to the `except` handler). -/
def executedSteps (fails : Step → Bool) : List Step → List Step
  | [] => []
  | s :: rest => if fails s then [s] else s :: executedSteps fails rest

theorem notMem_executedSteps_after_failure {t : Step} (fails : Step → Bool)
    (l1 l2 : List Step) (s : Step)
    (hfail : fails s = true) (ht1 : t ∉ l1) (hts : t ≠ s) :
    t ∉ executedSteps fails (l1 ++ s :: l2) := by
  induction l1 with
  | nil =>
    simp only [List.nil_append]
    unfold executedSteps
    rw [if_pos hfail]
    simpa using hts
  | cons a l1 ih =>
    have hta : t ≠ a := fun hc => ht1 (by rw [hc]; exact List.mem_cons_self a l1)
    have ht1' : t ∉ l1 := fun hc => ht1 (List.mem_cons_of_mem a hc)
    simp only [List.cons_append]
    unfold executedSteps
    by_cases ha : fails a
    · rw [if_pos ha]
      simpa using hta
    · rw [if_neg ha]
      intro hc
      rcases List.mem_cons.mp hc with h | h
      · exact hta h
      · exact ih ht1' h

/-- Claim C6, counterexample. In the main run sequence, when the 3G Ericsson
stage fails (e.g. its required source file is missing), that stage is the
last one entered: the 3G ZTE, 4G Ericsson and 4G ZTE pipelines do not run,
contradicting "the other vendor pipelines still execute independently". -/
theorem pipeline_failure_not_confined_counterexample :
    Step.proc3GEricsson ∈ mainSteps true
    ∧ Step.proc3GEricsson
        ∈ executedSteps (fun s => s == .proc3GEricsson) (mainSteps true)
    ∧ Step.proc3GZTE
        ∉ executedSteps (fun s => s == .proc3GEricsson) (mainSteps true)
    ∧ Step.proc4GEricsson
        ∉ executedSteps (fun s => s == .proc3GEricsson) (mainSteps true)
    ∧ Step.proc4GZTE
        ∉ executedSteps (fun s => s == .proc3GEricsson) (mainSteps true) := by
  decide

/-- Claim C6, amended. A fatal "required source missing" failure in the 3G
Ericsson pipeline is NOT confined to that pipeline: because all four vendor
pipelines run inside one `try:` block, whenever the 3G Ericsson stage fails
(in any run, with or without the email stages) none of the later vendor
pipelines — 3G ZTE, 4G Ericsson, 4G ZTE — executes, nor do the merge and the
retention write; the run jumps to the error handler instead. -/
theorem pipeline_failure_aborts_later_pipelines (fails : Step → Bool)
    (skipEmail : Bool) (h : fails Step.proc3GEricsson = true) :
    Step.proc3GZTE ∉ executedSteps fails (mainSteps skipEmail)
    ∧ Step.proc4GEricsson ∉ executedSteps fails (mainSteps skipEmail)
    ∧ Step.proc4GZTE ∉ executedSteps fails (mainSteps skipEmail)
    ∧ Step.merge3G4G ∉ executedSteps fails (mainSteps skipEmail)
    ∧ Step.saveExcel ∉ executedSteps fails (mainSteps skipEmail) := by
  cases skipEmail with
  | true =>
    refine ⟨?_, ?_, ?_, ?_, ?_⟩ <;>
      exact notMem_executedSteps_after_failure fails
        [.extractZips]
        [.proc3GZTE, .proc4GEricsson, .proc4GZTE,
         .concat3G, .concat4G, .merge3G4G, .saveExcel]
        .proc3GEricsson h (by decide) (by decide)
  | false =>
    refine ⟨?_, ?_, ?_, ?_, ?_⟩ <;>
      exact notMem_executedSteps_after_failure fails
        [.connectExchange, .cleanDownloads, .downloadEricsson, .downloadZTE,
         .extractZips]
        [.proc3GZTE, .proc4GEricsson, .proc4GZTE,
         .concat3G, .concat4G, .merge3G4G, .saveExcel]
        .proc3GEricsson h (by decide) (by decide)

/-- Witness for the amended C6 at a concrete failure predicate. -/
theorem pipeline_failure_aborts_later_pipelines_witness :
    Step.proc3GZTE ∉ executedSteps (fun s => s == .proc3GEricsson) (mainSteps false) :=
  (pipeline_failure_aborts_later_pipelines
    (fun s => s == .proc3GEricsson) false (by decide)).1

/-! ## The 4G ZTE stage: claim C7

`ZTE4GProcessor` (processing_4G_ZTE.py) defines only the methods listed
below; `main` (script.py lines 306-311) nevertheless calls
`standardize_columns`, `clean_data` and `aggregate_by_site` on it.  In
Python, invoking an attribute a class does not define raises
`AttributeError`; inside the single `try:` this makes the 4G ZTE stage fail
on every run that reaches it with its data loaded. -/

/-- The methods actually defined by class `ZTE4GProcessor`
(processing_4G_ZTE.py lines 35-270). -/
def zte4GProcessorMethods : List String :=
  ["__init__", "find_csv_file", "load_traffic_files",
   "load_user_throughput_files", "load_all_4g_zte_data",
   "merge_final_result", "get_dataframe", "print_dataframe_info"]

/-- The methods `main` invokes on the 4G ZTE processor, in order
(script.py lines 307-311). -/
def mainZte4GCalls : List String :=
  ["load_all_4g_zte_data", "merge_final_result", "standardize_columns",
   "clean_data", "aggregate_by_site"]

/-- The first invoked method the class does not define — the point at which
Python raises `AttributeError`. -/
def firstMissingMethod (defined calls : List String) : Option String :=
  calls.find? (fun c => !(defined.contains c))

/-- Claim C7. The 4G ZTE stage can never complete: the first method `main`
invokes that `ZTE4GProcessor` does not define is `standardize_columns` (so a
run whose 4G ZTE data loads and merges raises `AttributeError` exactly
there), and in every run in which the 4G ZTE stage consequently fails, the
3G/4G merge and the retention write are never executed. -/
theorem zte4G_stage_cannot_complete (fails : Step → Bool) (skipEmail : Bool)
    (h : fails Step.proc4GZTE
      = (firstMissingMethod zte4GProcessorMethods mainZte4GCalls).isSome) :
    firstMissingMethod zte4GProcessorMethods mainZte4GCalls
      = some "standardize_columns"
    ∧ Step.merge3G4G ∉ executedSteps fails (mainSteps skipEmail)
    ∧ Step.saveExcel ∉ executedSteps fails (mainSteps skipEmail) := by
  have hmiss : firstMissingMethod zte4GProcessorMethods mainZte4GCalls
      = some "standardize_columns" := by decide
  have hfail : fails Step.proc4GZTE = true := by
    rw [h, hmiss]
    rfl
  refine ⟨hmiss, ?_, ?_⟩ <;>
    cases skipEmail with
    | true =>
      exact notMem_executedSteps_after_failure fails
        [.extractZips, .proc3GEricsson, .proc3GZTE, .proc4GEricsson]
        [.concat3G, .concat4G, .merge3G4G, .saveExcel]
        .proc4GZTE hfail (by decide) (by decide)
    | false =>
      exact notMem_executedSteps_after_failure fails
        [.connectExchange, .cleanDownloads, .downloadEricsson, .downloadZTE,
         .extractZips, .proc3GEricsson, .proc3GZTE, .proc4GEricsson]
        [.concat3G, .concat4G, .merge3G4G, .saveExcel]
        .proc4GZTE hfail (by decide) (by decide)

/-- Witness for C7 at a concrete failure predicate: the run that fails at
the 4G ZTE stage never reaches the merge. -/
theorem zte4G_stage_cannot_complete_witness :
    firstMissingMethod zte4GProcessorMethods mainZte4GCalls
      = some "standardize_columns"
    ∧ Step.merge3G4G
        ∉ executedSteps (fun s => s == .proc4GZTE) (mainSteps true)
    ∧ Step.saveExcel
        ∉ executedSteps (fun s => s == .proc4GZTE) (mainSteps true) :=
  zte4G_stage_cannot_complete (fun s => s == .proc4GZTE) true (by decide)

/-! ## In-place mutation by `transform_hs_user`: claim C10

`transform_hs_user` (processing_3G_Ericsson.py lines 179-208) fetches the
stored raw `HS_User` frame and assigns `df['Max_user'] = …` and
`df['Max_hour_index'] = …` on that very object, not on a copy — the raw
table stored in `self.dataframes` is widened by two columns.  Python's
aliasing is modelled by explicit state passing: the widened frame is written
back under the key `"HS_User"`.  Cell values are mixed-typed
(`Max_hour_index` holds the *label* of the maximal hour column, a string),
so a pandas row is a list of `PValue`; row-wise `max` over a row mixing
numbers and strings raises `TypeError` (pandas 2 comparison semantics). -/

/-- A pandas cell value in a possibly mixed-typed frame. -/
inductive PValue where
  | num (n : Int)
  | str (s : String)
deriving DecidableEq, Repr

/-- A DataFrame, column-major: labeled columns in order. -/
structure PFrame where
  cols : List (String × List PValue)
deriving DecidableEq, Repr

def pframeColNames (df : PFrame) : List String := df.cols.map Prod.fst

/-- The id columns excluded from the hour-column scan
(processing_3G_Ericsson.py line 191); every *other* column of the frame
counts as an hour column. -/
def hsUserMetaCols : List String := ["Date", "RNC Id", "RBS Id", "UCell Id"]

/-- Model of `hour_columns = [col for col in df.columns if col not in [...]]`. -/
def hourColumnsOf (df : PFrame) : List String :=
  (pframeColNames df).filter (fun c => !(hsUserMetaCols.contains c))

def colValues (df : PFrame) (label : String) : List PValue :=
  match df.cols.find? (fun p => p.1 == label) with
  | some p => p.2
  | none => []

/-- Row-major view of the selected columns (`df[hour_columns]`). -/
def selectRows (df : PFrame) (labels : List String) : List (List PValue) :=
  (labels.map (colValues df)).transpose

/-- Projection `df[[...]].copy()`: a fresh frame of the selected columns. -/
def selectFrame (df : PFrame) (labels : List String) : PFrame :=
  ⟨labels.map (fun l => (l, colValues df l))⟩

/-- pandas `<` on two cell values: comparing a number with a string raises
`TypeError`. -/
def pvLt : PValue → PValue → Except String Bool
  | .num a, .num b => .ok (decide (a < b))
  | .str a, .str b => .ok (decide (a < b))
  | _, _ => .error "TypeError"

def pvMax (a b : PValue) : Except String PValue := do
  let lt ← pvLt a b
  pure (if lt then b else a)

/-- Row-wise `max(axis=1)` of one row. -/
def pandasRowMax : List PValue → Except String PValue
  | [] => .error "empty"
  | v :: vs => vs.foldlM pvMax v

/-- Scan for `idxmax`: keep the first label whose value is maximal. -/
def pandasRowIdxmaxGo (bl : String) (bv : PValue) :
    List String → List PValue → Except String PValue
  | l :: ls, v :: vs => do
    let lt ← pvLt bv v
    if lt then pandasRowIdxmaxGo l v ls vs else pandasRowIdxmaxGo bl bv ls vs
  | _, _ => .ok (.str bl)

/-- Row-wise `idxmax(axis=1)` of one row: the *label* (a string) of the leftmost
maximal column. -/
def pandasRowIdxmax (labels : List String) (vals : List PValue) :
    Except String PValue :=
  match labels, vals with
  | l :: ls, v :: vs => pandasRowIdxmaxGo l v ls vs
  | _, _ => .error "empty"

/-- The processor's `self.dataframes` dictionary. -/
abbrev ProcFrames := List (String × PFrame)

/-- Python dict assignment `d[k] = v`: replace the entry in place if the key
exists, else append. -/
def storeDf : ProcFrames → String → PFrame → ProcFrames
  | [], name, df => [(name, df)]
  | p :: rest, name, df =>
    if p.1 == name then (name, df) :: rest
    else p :: storeDf rest name df

/-- Python dict lookup `d[k]`. -/
def lookupDf (st : ProcFrames) (name : String) : Option PFrame :=
  match st.find? (fun p => p.1 == name) with
  | some p => some p.2
  | none => none

/-- Column assignment `df[label] = vals`: replace the column in place if it
exists, else append it on the right. -/
def setColAux : List (String × List PValue) → String → List PValue →
    List (String × List PValue)
  | [], label, vals => [(label, vals)]
  | p :: rest, label, vals =>
    if p.1 == label then (label, vals) :: rest
    else p :: setColAux rest label vals

def setCol (df : PFrame) (label : String) (vals : List PValue) : PFrame :=
  ⟨setColAux df.cols label vals⟩

/-- Model of `transform_hs_user` as a state transformer on `self.dataframes`:
fetch `HS_User`, compute `Max_user` and `Max_hour_index` over the hour
columns, assign both onto the fetched frame itself (the stored raw table is
therefore replaced by the widened frame), store the 3-column projection under
`HS_User_Transformed`, and return it. -/
def transformHsUser (st : ProcFrames) : Except String (PFrame × ProcFrames) :=
  match lookupDf st "HS_User" with
  | none => .error "KeyError"
  | some df =>
    match (selectRows df (hourColumnsOf df)).mapM pandasRowMax with
    | .error e => .error e
    | .ok maxCol =>
      match (selectRows df (hourColumnsOf df)).mapM
          (pandasRowIdxmax (hourColumnsOf df)) with
      | .error e => .error e
      | .ok idxCol =>
        let df2 := setCol (setCol df "Max_user" maxCol) "Max_hour_index" idxCol
        let result := selectFrame df2 ["UCell Id", "Max_user", "Max_hour_index"]
        .ok (result, storeDf (storeDf st "HS_User" df2) "HS_User_Transformed" result)

theorem setColAux_append_of_notMem (cols : List (String × List PValue))
    (label : String) (vals : List PValue)
    (h : ∀ p ∈ cols, (p.1 == label) = false) :
    setColAux cols label vals = cols ++ [(label, vals)] := by
  induction cols with
  | nil => rfl
  | cons p rest ih =>
    unfold setColAux
    rw [if_neg (by rw [h p (List.mem_cons_self p rest)]; simp)]
    rw [ih (fun q hq => h q (List.mem_cons_of_mem p hq))]
    rfl

theorem find?_cons_true {α : Type} (p : α → Bool) (a : α) (l : List α)
    (h : p a = true) : (a :: l).find? p = some a := by
  simp [List.find?, h]

theorem find?_cons_false {α : Type} (p : α → Bool) (a : α) (l : List α)
    (h : p a = false) : (a :: l).find? p = l.find? p := by
  simp [List.find?, h]

theorem lookupDf_storeDf_same (st : ProcFrames) (name : String) (df : PFrame) :
    lookupDf (storeDf st name df) name = some df := by
  induction st with
  | nil =>
    unfold storeDf lookupDf
    rw [find?_cons_true (fun q => q.1 == name) (name, df) [] (by simp)]
  | cons p rest ih =>
    unfold storeDf
    by_cases hp : (p.1 == name) = true
    · rw [if_pos hp]
      unfold lookupDf
      rw [find?_cons_true (fun q => q.1 == name) (name, df) rest (by simp)]
    · rw [if_neg hp]
      unfold lookupDf
      rw [find?_cons_false (fun q => q.1 == name) p (storeDf rest name df)
        (Bool.eq_false_iff.mpr hp)]
      exact ih

theorem lookupDf_storeDf_other (st : ProcFrames) (name otherName : String)
    (df : PFrame) (h : otherName ≠ name) :
    lookupDf (storeDf st name df) otherName = lookupDf st otherName := by
  induction st with
  | nil =>
    unfold storeDf lookupDf
    rw [find?_cons_false (fun q => q.1 == otherName) (name, df) []
      (by simpa using (Ne.symm h))]
  | cons p rest ih =>
    unfold storeDf
    by_cases hp : (p.1 == name) = true
    · rw [if_pos hp]
      unfold lookupDf
      rw [find?_cons_false (fun q => q.1 == otherName) (name, df) rest
        (by simpa using (Ne.symm h))]
      rw [find?_cons_false (fun q => q.1 == otherName) p rest
        (by
          show (p.1 == otherName) = false
          have hpn : p.1 = name := beq_iff_eq.mp hp
          rw [hpn]
          simpa using (Ne.symm h))]
    · rw [if_neg hp]
      unfold lookupDf
      by_cases hq : (p.1 == otherName) = true
      · rw [find?_cons_true (fun q => q.1 == otherName) p (storeDf rest name df) hq,
          find?_cons_true (fun q => q.1 == otherName) p rest hq]
      · rw [find?_cons_false (fun q => q.1 == otherName) p (storeDf rest name df)
            (Bool.eq_false_iff.mpr hq),
          find?_cons_false (fun q => q.1 == otherName) p rest
            (Bool.eq_false_iff.mpr hq)]
        exact ih

/-- The concrete raw `HS_User` frame: the four id columns and 24 hour
columns "0".."23" for one cell, all numeric, maximum 5 at hour 2. -/
def hsFrameEx : PFrame :=
  ⟨[("Date", [.str "2025-01-01"]), ("RNC Id", [.str "R1"]),
    ("RBS Id", [.str "B1"]), ("UCell Id", [.str "HHN0001A"])]
    ++ (List.range 24).map
        (fun i => (toString i, [PValue.num (if i = 2 then 5 else 1)]))⟩

/-- The processor state after loading: only the raw `HS_User` table. -/
def hsStateEx : ProcFrames := [("HS_User", hsFrameEx)]

/-- The state after the first `transform_hs_user` call. -/
def hsStateExAfter : ProcFrames :=
  match transformHsUser hsStateEx with
  | .ok (_, st1) => st1
  | .error _ => []

/-- The frame returned by the first `transform_hs_user` call. -/
def hsResultEx : PFrame :=
  match transformHsUser hsStateEx with
  | .ok (res, _) => res
  | .error _ => ⟨[]⟩

set_option maxRecDepth 8192 in
/-- Claim C10. `transform_hs_user` is not side-effect-free on its input: on any
state whose raw `HS_User` frame does not yet carry the two derived columns, a
successful call replaces the stored raw frame by one widened by exactly the
columns `Max_user` and `Max_hour_index` (which a subsequent hour-column scan
then counts among the hour columns), so the stored raw table changes; and on
the concrete loaded state the first call succeeds while the second call —
operating on the widened table whose `Max_hour_index` column holds string
labels — raises `TypeError` instead of returning the first call's result. -/
theorem transformHsUser_mutates_state :
    (∀ (st : ProcFrames) (df res : PFrame) (st' : ProcFrames),
      lookupDf st "HS_User" = some df →
      df.cols.all (fun p => p.1 != "Max_user") = true →
      df.cols.all (fun p => p.1 != "Max_hour_index") = true →
      transformHsUser st = .ok (res, st') →
      ∃ df', lookupDf st' "HS_User" = some df'
        ∧ df'.cols.length = df.cols.length + 2
        ∧ hourColumnsOf df' = hourColumnsOf df ++ ["Max_user", "Max_hour_index"]
        ∧ lookupDf st' "HS_User" ≠ lookupDf st "HS_User")
    ∧ transformHsUser hsStateEx = .ok (hsResultEx, hsStateExAfter)
    ∧ transformHsUser hsStateExAfter = .error "TypeError"
    ∧ transformHsUser hsStateExAfter ≠ transformHsUser hsStateEx := by
  have hfirst : transformHsUser hsStateEx = .ok (hsResultEx, hsStateExAfter) := rfl
  have hsecond : transformHsUser hsStateExAfter = .error "TypeError" := rfl
  refine ⟨?_, hfirst, hsecond, by
    intro hc
    rw [hfirst, hsecond] at hc
    exact Except.noConfusion hc⟩
  intro st df res st' hdf h1 h2 hok
  unfold transformHsUser at hok
  rw [hdf] at hok
  dsimp only at hok
  cases hmax : (selectRows df (hourColumnsOf df)).mapM pandasRowMax with
  | error e =>
    rw [hmax] at hok
    simp at hok
  | ok maxCol =>
    rw [hmax] at hok
    dsimp only at hok
    cases hidx : (selectRows df (hourColumnsOf df)).mapM
        (pandasRowIdxmax (hourColumnsOf df)) with
    | error e =>
      rw [hidx] at hok
      simp at hok
    | ok idxCol =>
      rw [hidx] at hok
      dsimp only at hok
      injection hok with hok
      have hst' : st' = storeDf
          (storeDf st "HS_User" (setCol (setCol df "Max_user" maxCol) "Max_hour_index" idxCol))
          "HS_User_Transformed"
          (selectFrame (setCol (setCol df "Max_user" maxCol) "Max_hour_index" idxCol)
            ["UCell Id", "Max_user", "Max_hour_index"]) := by
        have := congrArg Prod.snd hok
        exact this.symm
      have hcols1 : (setCol df "Max_user" maxCol).cols
          = df.cols ++ [("Max_user", maxCol)] := by
        show setColAux df.cols "Max_user" maxCol = df.cols ++ [("Max_user", maxCol)]
        exact setColAux_append_of_notMem df.cols "Max_user" maxCol
          (fun p hp => by
            have := List.all_eq_true.mp h1 p hp
            simpa using this)
      have hcols2 : (setCol (setCol df "Max_user" maxCol) "Max_hour_index" idxCol).cols
          = df.cols ++ [("Max_user", maxCol), ("Max_hour_index", idxCol)] := by
        show setColAux (setCol df "Max_user" maxCol).cols "Max_hour_index" idxCol
          = df.cols ++ [("Max_user", maxCol), ("Max_hour_index", idxCol)]
        rw [setColAux_append_of_notMem (setCol df "Max_user" maxCol).cols
          "Max_hour_index" idxCol
          (fun p hp => by
            rw [hcols1] at hp
            rcases List.mem_append.mp hp with hp | hp
            · have := List.all_eq_true.mp h2 p hp
              simpa using this
            · have hpe : p = ("Max_user", maxCol) := by simpa using hp
              rw [hpe]
              rfl)]
        rw [hcols1]
        simp
      refine ⟨setCol (setCol df "Max_user" maxCol) "Max_hour_index" idxCol, ?_, ?_, ?_, ?_⟩
      · rw [hst']
        rw [lookupDf_storeDf_other _ _ _ _ (by decide)]
        exact lookupDf_storeDf_same _ _ _
      · rw [hcols2]
        simp
      · unfold hourColumnsOf pframeColNames
        rw [hcols2]
        rw [List.map_append, List.filter_append]
        rfl
      · rw [hst']
        rw [lookupDf_storeDf_other _ _ _ _ (by decide)]
        rw [lookupDf_storeDf_same, hdf]
        intro hc
        injection hc with hc
        have hlen : (setCol (setCol df "Max_user" maxCol) "Max_hour_index" idxCol).cols.length
            = df.cols.length + 2 := by
          rw [hcols2]
          simp
        rw [hc] at hlen
        omega

/-- Witness for C10's general part: on the concrete loaded state the stored
raw `HS_User` frame really is replaced by a 2-column-wider frame, and the
hour-column scan of the widened frame picks up the two derived columns. -/
theorem transformHsUser_mutates_state_witness :
    ∃ df', lookupDf hsStateExAfter "HS_User" = some df'
      ∧ df'.cols.length = hsFrameEx.cols.length + 2
      ∧ hourColumnsOf df' = hourColumnsOf hsFrameEx ++ ["Max_user", "Max_hour_index"]
      ∧ lookupDf hsStateExAfter "HS_User" ≠ lookupDf hsStateEx "HS_User" :=
  transformHsUser_mutates_state.1 hsStateEx hsFrameEx hsResultEx hsStateExAfter
    (by decide) (by decide) (by decide)
    transformHsUser_mutates_state.2.1

end Spec2Proof
